import Mathlib

/-!
Verification of the hubspot-importer subsystem of the bepp-internal-apps
repository against its specification.

The services are shallowly embedded: JavaScript strings are modelled as
lists of characters, integer arithmetic as natural numbers, and the
fractional similarity scores as rational numbers.  Network and storage
collaborators (the CRM gateway, the job store) are passed in as explicit
oracle functions, so every embedded operation is a pure, executable
function of its inputs.
-/

namespace Bepp

/-- JavaScript strings are modelled as lists of characters. -/
abbrev JStr := List Char

/-- Character-wise model of String.prototype.toLowerCase (ASCII range). -/
def jsToLower (s : JStr) : JStr := s.map Char.toLower

/-- Model of String.prototype.trim: strip leading and trailing whitespace. -/
def jsTrim (s : JStr) : JStr :=
  ((s.dropWhile Char.isWhitespace).reverse.dropWhile Char.isWhitespace).reverse

/-- Entry (i, j) of the dynamic-programming matrix built by
levenshteinDistance in duplicate-matcher.ts: the first column is
initialised to i, the first row to j, and every inner entry is the minimum
of deletion, insertion and substitution, the substitution cost coming from
comparing s1[i-1] with s2[j-1]. -/
def levMatrix (s1 s2 : JStr) : Nat → Nat → Nat
  | 0, j => j
  | i + 1, 0 => i + 1
  | i + 1, j + 1 =>
    let cost : Nat := if s1.getD i ' ' = s2.getD j ' ' then 0 else 1
    min (levMatrix s1 s2 i (j + 1) + 1)
      (min (levMatrix s1 s2 (i + 1) j + 1) (levMatrix s1 s2 i j + cost))

/-- levenshteinDistance from duplicate-matcher.ts: lower-case both strings,
short-circuit when one is empty, otherwise read the bottom-right entry of
the distance matrix. -/
def levenshteinDistance (str1 str2 : JStr) : Nat :=
  let s1 := jsToLower str1
  let s2 := jsToLower str2
  if s1.length = 0 then s2.length
  else if s2.length = 0 then s1.length
  else levMatrix s1 s2 s1.length s2.length

/-- stringSimilarity from duplicate-matcher.ts: 0 when either string is
empty (JavaScript falsiness of the empty string), otherwise
1 - distance / maxLength. -/
def stringSimilarity (str1 str2 : JStr) : ℚ :=
  if str1 = [] ∨ str2 = [] then 0
  else
    let maxLength := max str1.length str2.length
    if maxLength = 0 then 1
    else 1 - (levenshteinDistance str1 str2 : ℚ) / (maxLength : ℚ)

/-- normalizeOrgNumber from duplicate-matcher.ts: the empty (falsy) string
maps to the empty string; otherwise trim whitespace first, then drop every
non-digit character. -/
def normalizeOrgNumber (orgNumber : JStr) : JStr :=
  if orgNumber = [] then []
  else (jsTrim orgNumber).filter Char.isDigit

/-- Split a string into its whitespace-separated words. -/
def wordsOf (s : JStr) : List JStr :=
  (s.splitOnP Char.isWhitespace).filter (fun w => !w.isEmpty)

/-- Concatenate words with single spaces: models the final whitespace
collapse and trim of normalizeCompanyName. -/
def joinWords : List JStr → JStr
  | [] => []
  | [w] => w
  | w :: rest => w ++ ' ' :: joinWords rest

/-- Word sequences recognised by the leading Swedish legal-form regex of
normalizeCompanyName (alternatives in source order; the optional inner
whitespace of the two-word forms yields both spellings). -/
def swedishFrontForms : List (List JStr) :=
  [["aktiebolaget".toList], ["aktiebolag".toList], ["handelsbolaget".toList],
   ["handelsbolag".toList], ["kommanditbolaget".toList], ["kommanditbolag".toList],
   ["enskilda".toList, "firman".toList], ["enskildafirman".toList],
   ["enskild".toList, "firman".toList], ["enskildfirman".toList]]

/-- Word sequences recognised by the trailing Swedish legal-form regex of
normalizeCompanyName. -/
def swedishBackForms : List (List JStr) :=
  [["ab".toList], ["aktiebolag".toList], ["aktiebolaget".toList], ["hb".toList],
   ["handelsbolag".toList], ["handelsbolaget".toList], ["kb".toList],
   ["kommanditbolag".toList], ["kommanditbolaget".toList], ["ef".toList],
   ["ek".toList, "för".toList], ["ek".toList, "för.".toList],
   ["ekför".toList], ["ekför.".toList],
   ["enskild".toList, "firma".toList], ["enskilda".toList, "firman".toList]]

/-- Word sequences recognised by the international business-form regexes of
normalizeCompanyName (each dot is optional in the source pattern). -/
def intlForms : List (List JStr) :=
  [["inc".toList], ["inc.".toList], ["ltd".toList], ["ltd.".toList],
   ["llc".toList], ["llc.".toList], ["gmbh".toList], ["co".toList],
   ["co.".toList], ["corp".toList], ["corp.".toList]]

/-- Strip a leading legal form: the source regex anchors at the start and
requires whitespace after the form, so at word level the first alternative
matching a proper prefix of the word list is removed. -/
def stripFormFront (forms : List (List JStr)) (ws : List JStr) : List JStr :=
  match forms.find? (fun alt => ws.take alt.length == alt && decide (alt.length < ws.length)) with
  | some alt => ws.drop alt.length
  | none => ws

/-- Strip a trailing legal form: the source regex requires whitespace before
the form and anchors at the end, so at word level the first alternative
matching a proper suffix of the word list is removed. -/
def stripFormBack (forms : List (List JStr)) (ws : List JStr) : List JStr :=
  match forms.find? (fun alt => ws.drop (ws.length - alt.length) == alt && decide (alt.length < ws.length)) with
  | some alt => ws.take (ws.length - alt.length)
  | none => ws

/-- normalizeCompanyName from duplicate-matcher.ts, modelled at word level:
lower-case, strip the leading Swedish legal-form token, the trailing
Swedish legal-form token, then the leading and trailing international
business-type tokens, and collapse whitespace.  The regex replaces touch
only whole whitespace-delimited tokens, which the word representation
captures. -/
def normalizeCompanyName (name : JStr) : JStr :=
  joinWords
    (stripFormBack intlForms
      (stripFormFront intlForms
        (stripFormBack swedishBackForms
          (stripFormFront swedishFrontForms (wordsOf (jsToLower name))))))

/-- ScrapedCompany from types/company.ts: revenue and employees may be null. -/
structure ScrapedCompany where
  organizationName : JStr
  orgNumber : JStr
  zipCode : JStr
  city : JStr
  revenue : Option JStr
  employees : Option JStr
  allabolagUrl : JStr
deriving DecidableEq

/-- A Hubspot company as returned by getAllCompanies restricted to the
three fetched properties; a null property is none. -/
structure HubspotCompany where
  id : JStr
  nameProp : Option JStr
  domainProp : Option JStr
  orgProp : Option JStr
deriving DecidableEq

/-- JavaScript truthiness of a nullable string: null and "" are falsy. -/
def truthy : Option JStr → Bool
  | none => false
  | some s => !s.isEmpty

/-- JavaScript `x || d` for a nullable string x and default d. -/
def orElseStr (o : Option JStr) (d : JStr) : JStr :=
  if truthy o then o.getD [] else d

/-- JavaScript `x || undefined` for a nullable string x. -/
def orElseUndefined (o : Option JStr) : Option JStr :=
  if truthy o then o else none

/-- Match kinds of DuplicateMatch from types/company.ts. -/
inductive MatchType where
  | org_number
  | name_similarity
deriving DecidableEq

/-- The embedded hubspotCompany reference of a DuplicateMatch. -/
structure HubspotRef where
  id : JStr
  name : JStr
  domain : Option JStr
  orgNumber : Option JStr
deriving DecidableEq

/-- DuplicateMatch from types/company.ts; similarity is set only for
name-similarity matches. -/
structure DuplicateMatch where
  scrapedCompany : ScrapedCompany
  hubspotCompany : HubspotRef
  matchType : MatchType
  similarity : Option ℚ
deriving DecidableEq

/-- Fuzzy-name threshold from duplicate-matcher.ts. -/
def NAME_SIMILARITY_THRESHOLD : ℚ := 0.75

/-- The hubspotCompany record pushed by findDuplicates: name falls back to
"Unknown", domain and orgNumber to undefined. -/
def mkHubspotRef (h : HubspotCompany) : HubspotRef :=
  { id := h.id
    name := orElseStr h.nameProp "Unknown".toList
    domain := orElseUndefined h.domainProp
    orgNumber := orElseUndefined h.orgProp }

/-- The map of Hubspot companies keyed by normalized org number built by
findDuplicates: keys must normalize to 8-12 digits and the first company
wins on collision. -/
def hubspotByOrgNumber (hubspotCompanies : List HubspotCompany) :
    List (JStr × HubspotCompany) :=
  hubspotCompanies.foldl (fun m company =>
    if truthy company.orgProp then
      let normalized := normalizeOrgNumber (company.orgProp.getD [])
      if 8 ≤ normalized.length ∧ normalized.length ≤ 12 then
        if (m.lookup normalized).isNone then m ++ [(normalized, company)] else m
      else m
    else m) []

/-- One step of the first pass of findDuplicates: an exact org-number match
for a single scraped company (the scraped org number must be truthy and
normalize to 8-12 digits, and the map must contain the key). -/
def exactMatchFor (m : List (JStr × HubspotCompany)) (scraped : ScrapedCompany) :
    Option DuplicateMatch :=
  if scraped.orgNumber ≠ [] then
    let normalizedOrgNum := normalizeOrgNumber scraped.orgNumber
    if 8 ≤ normalizedOrgNum.length ∧ normalizedOrgNum.length ≤ 12 then
      match m.lookup normalizedOrgNum with
      | some hubspotMatch =>
        some { scrapedCompany := scraped, hubspotCompany := mkHubspotRef hubspotMatch,
               matchType := .org_number, similarity := none }
      | none => none
    else none
  else none

/-- The best-match fold of the second pass of findDuplicates: scan every
fetched Hubspot company (companies with a falsy name are skipped), keeping
the first company whose similarity meets the threshold and strictly beats
the best similarity so far. -/
def bestFuzzy (hubspotCompanies : List HubspotCompany) (normalizedScrapedName : JStr) :
    Option HubspotCompany × ℚ :=
  hubspotCompanies.foldl (fun best hubspot =>
    if truthy hubspot.nameProp then
      let similarity := stringSimilarity normalizedScrapedName
        (normalizeCompanyName (hubspot.nameProp.getD []))
      if NAME_SIMILARITY_THRESHOLD ≤ similarity ∧ best.2 < similarity then
        (some hubspot, similarity)
      else best
    else best) (none, 0)

/-- One step of the second pass of findDuplicates: the fuzzy-name match for
a single scraped company, if any candidate reached the threshold. -/
def fuzzyMatchFor (hubspotCompanies : List HubspotCompany) (scraped : ScrapedCompany) :
    Option DuplicateMatch :=
  match bestFuzzy hubspotCompanies (normalizeCompanyName scraped.organizationName) with
  | (some bestMatch, bestSimilarity) =>
    some { scrapedCompany := scraped, hubspotCompany := mkHubspotRef bestMatch,
           matchType := .name_similarity, similarity := some bestSimilarity }
  | (none, _) => none

/-- Boolean order underlying the final duplicates.sort comparator:
dupLe a b holds exactly when the comparator does not place b strictly
before a (org_number before name_similarity, name_similarity ordered by
similarity descending with absent similarity read as 0). -/
def dupLe (a b : DuplicateMatch) : Bool :=
  match a.matchType, b.matchType with
  | .org_number, .name_similarity => true
  | .name_similarity, .org_number => false
  | .name_similarity, .name_similarity =>
    decide ((b.similarity.getD 0) ≤ (a.similarity.getD 0))
  | .org_number, .org_number => true

/-- The comparator order as a decidable relation. -/
def dupRel (a b : DuplicateMatch) : Prop := dupLe a b = true

instance : DecidableRel dupRel :=
  fun a b => inferInstanceAs (Decidable (dupLe a b = true))

instance : IsTotal DuplicateMatch dupRel where
  total a b := by
    unfold dupRel dupLe
    cases a.matchType <;> cases b.matchType <;> simp
    exact le_total _ _

instance : IsTrans DuplicateMatch dupRel where
  trans a b c hab hbc := by
    unfold dupRel dupLe at *
    cases ha : a.matchType <;> cases hb : b.matchType <;> cases hc : c.matchType <;>
      simp_all
    exact le_trans hbc hab

/-- findDuplicates from duplicate-matcher.ts, with the already fetched
Hubspot company list passed in.  Pass 1 records exact org-number matches;
pass 2 runs over the scraped companies not matched in pass 1 (the
processedScrapedIndices set) and scans the full Hubspot list for the best
fuzzy name match; the result is sorted by the comparator, modelled by a
stable insertion sort exactly as Array.prototype.sort is stable. -/
def findDuplicates (hubspotCompanies : List HubspotCompany)
    (scrapedCompanies : List ScrapedCompany) : List DuplicateMatch :=
  let m := hubspotByOrgNumber hubspotCompanies
  let pass1 := scrapedCompanies.filterMap (exactMatchFor m)
  let pass2 := scrapedCompanies.filterMap (fun s =>
    if (exactMatchFor m s).isSome then none else fuzzyMatchFor hubspotCompanies s)
  List.insertionSort dupRel (pass1 ++ pass2)

/-- Hubspot company used in the analysis of the fuzzy pass: it carries both
a valid org number and a name. -/
def hsBoth : HubspotCompany :=
  { id := "h1".toList, nameProp := some "abc".toList, domainProp := none,
    orgProp := some "5561998484".toList }

/-- Scraped company whose org number matches hsBoth exactly. -/
def scrExact : ScrapedCompany :=
  { organizationName := "aaa".toList, orgNumber := "556199-8484".toList,
    zipCode := [], city := [], revenue := none, employees := none, allabolagUrl := [] }

/-- Scraped company with no org number whose name equals hsBoth's name. -/
def scrFuzzy : ScrapedCompany :=
  { organizationName := "abc".toList, orgNumber := [],
    zipCode := [], city := [], revenue := none, employees := none, allabolagUrl := [] }

/-- The exact match produced by findDuplicates for scrExact against hsBoth. -/
def dExactC2 : DuplicateMatch :=
  { scrapedCompany := scrExact, hubspotCompany := mkHubspotRef hsBoth,
    matchType := .org_number, similarity := none }

/-- The fuzzy match produced by findDuplicates for scrFuzzy against hsBoth. -/
def dFuzzyC2 : DuplicateMatch :=
  { scrapedCompany := scrFuzzy, hubspotCompany := mkHubspotRef hsBoth,
    matchType := .name_similarity,
    similarity := some (stringSimilarity (normalizeCompanyName scrFuzzy.organizationName)
      (normalizeCompanyName (hsBoth.nameProp.getD []))) }

/-- Remove every whitespace character: models .replace(/\s/g, ""). -/
def removeAllWs (s : JStr) : JStr := s.filter (fun c => !c.isWhitespace)

/-- Replace the first whitespace character by a single space: models
.replace(/\s/, " ") without a global flag. -/
def replaceFirstWs : JStr → JStr
  | [] => []
  | c :: rest => if c.isWhitespace then ' ' :: rest else c :: replaceFirstWs rest

/-- Model of String.prototype.startsWith. -/
def jsStartsWith (s w : JStr) : Bool := s.take w.length == w

/-- Match of the (\d{10})\/?$ regex of scrapePage on the company link
path: ten digits, an optional trailing slash, end of string.  Returns the
ten digits. -/
def pathOrgMatch (path : JStr) : Option JStr :=
  let t := if path.getLast? = some '/' then path.dropLast else path
  if 10 ≤ t.length ∧ (t.drop (t.length - 10)).all Char.isDigit then
    some (t.drop (t.length - 10))
  else none

/-- Consume a case-insensitive "nr" at the head of the text. -/
def takeNr : JStr → Option JStr
  | a :: b :: rest => if a.toLower = 'n' ∧ b.toLower = 'r' then some rest else none
  | _ => none

/-- Head match of the Org\.?nr[:\s]*(\d{6})-?(\d{4}) regex (i flag) used as
the fallback org-number extraction of scrapePage: "org" case-insensitively,
an optional dot, "nr", a run of colons and whitespace, six digits, an
optional dash, four digits; returns the two digit groups.  The optional
dot and dash are greedy, and when the rest of the pattern fails after
consuming them the backtracked attempt fails as well, so consuming them
when present is exact. -/
def matchOrgAt (l : JStr) : Option (JStr × JStr) :=
  match l with
  | c1 :: c2 :: c3 :: rest =>
    if c1.toLower = 'o' ∧ c2.toLower = 'r' ∧ c3.toLower = 'g' then
      let afterNr := match rest with
        | '.' :: r => takeNr r
        | r => takeNr r
      match afterNr with
      | some r1 =>
        let r2 := r1.dropWhile (fun c => c = ':' || c.isWhitespace)
        if (r2.take 6).length = 6 ∧ (r2.take 6).all Char.isDigit then
          let r3 := r2.drop 6
          let r4 := match r3 with
            | '-' :: rr => rr
            | rr => rr
          if (r4.take 4).length = 4 ∧ (r4.take 4).all Char.isDigit then
            some (r2.take 6, r4.take 4)
          else none
        else none
      | none => none
    else none
  | _ => none

/-- Leftmost search of the Org.nr pattern in the card text. -/
def textOrgSearch : JStr → Option (JStr × JStr)
  | [] => none
  | c :: rest =>
    match matchOrgAt (c :: rest) with
    | some r => some r
    | none => textOrgSearch rest

/-- Match of the ^(\d{3}\s?\d{2})\s+(.+)$ regex on a location text: three
digits, an optional single whitespace, two digits, at least one whitespace,
then a non-empty remainder.  Returns the zip group exactly as matched and
the remainder.  The optional whitespace is greedy with one backtracking
retry, modelled by the two attempts. -/
def zipMatch (l : JStr) : Option (JStr × JStr) :=
  if (l.take 3).length = 3 ∧ (l.take 3).all Char.isDigit then
    let r := l.drop 3
    let attempt := fun (zpart : JStr) (rr : JStr) =>
      if (rr.take 2).length = 2 ∧ (rr.take 2).all Char.isDigit then
        let afterZip := rr.drop 2
        let city := afterZip.dropWhile Char.isWhitespace
        if city.length < afterZip.length ∧ city ≠ [] then
          some (l.take 3 ++ zpart ++ rr.take 2, city)
        else none
      else none
    match r with
    | c :: rr =>
      if c.isWhitespace then
        match attempt [c] rr with
        | some res => some res
        | none => attempt [] r
      else attempt [] r
    | [] => none
  else none

/-- One span[class*=CardHeader-propertyList] of a company card as scrapePage
reads it: whether it contains the location-dot icon, and its text. -/
structure LocationSpan where
  hasIcon : Bool
  text : JStr

/-- One div[class*=CardHeader-propertyBlock] of a company card: the header
text and the text remaining once the header element is removed. -/
structure PropertyBlock where
  header : JStr
  value : JStr

/-- The pieces of one SegmentationSearchResultCard-card element that
scrapePage reads: the first h2 link's text and href, the whole card text,
the property-list spans and the property blocks. -/
structure Card where
  nameText : JStr
  href : Option JStr
  cardText : JStr
  locationSpans : List LocationSpan
  propertyBlocks : List PropertyBlock

/-- The organizationName read from a card: the trimmed h2-link text. -/
def cardName (card : Card) : JStr := jsTrim card.nameText

/-- The companyPath read from a card: the href attribute or "". -/
def cardPath (card : Card) : JStr := card.href.getD []

/-- The org number extracted from a card: the trailing ten-digit segment of
the link path reformatted as NNNNNN-NNNN, and when that is empty the
Org.nr label found in the card text. -/
def cardOrgNumber (card : Card) : JStr :=
  let fromPath := match pathOrgMatch (cardPath card) with
    | some raw => raw.take 6 ++ '-' :: raw.drop 6
    | none => []
  if fromPath = [] then
    match textOrgSearch card.cardText with
    | some g => g.1 ++ '-' :: g.2
    | none => []
  else fromPath

/-- The zipCode/city fold of scrapePage over the property-list spans: every
span carrying the location icon overwrites city (and, when the zip regex
matches, also zipCode; a non-matching text leaves the prior zipCode). -/
def cardLocation (card : Card) : JStr × JStr :=
  card.locationSpans.foldl (fun zc sp =>
    if sp.hasIcon then
      let locationText := jsTrim sp.text
      match zipMatch locationText with
      | some g => (replaceFirstWs g.1, jsTrim g.2)
      | none => (zc.1, locationText)
    else zc) ([], [])

/-- The revenue/employees fold of scrapePage over the property blocks: a
header starting with "omsättning" (lower-cased) sets revenue, a header
equal to "anställda" sets employees; values are trimmed and then have all
whitespace removed. -/
def cardFigures (card : Card) : Option JStr × Option JStr :=
  card.propertyBlocks.foldl (fun re blk =>
    let header := jsTrim blk.header
    let value := removeAllWs (jsTrim blk.value)
    if jsStartsWith (jsToLower header) "omsättning".toList then (some value, re.2)
    else if jsToLower header = "anställda".toList then (re.1, some value)
    else re) (none, none)

/-- Per-card extraction of scrapePage: extract all fields and skip the card
(continue to the next one, without failing the page) at the
`if (!orgNumber || !organizationName)` guard. -/
def extractCard (card : Card) : Option ScrapedCompany :=
  let organizationName := cardName card
  let orgNumber := cardOrgNumber card
  if orgNumber = [] ∨ organizationName = [] then none
  else
    let zc := cardLocation card
    let re := cardFigures card
    some { organizationName := organizationName, orgNumber := orgNumber,
           zipCode := zc.1, city := zc.2, revenue := re.1, employees := re.2,
           allabolagUrl := "https://www.allabolag.se".toList ++ cardPath card }

/-- The card loop of scrapePage: every card is extracted independently and
skipped cards are simply absent from the returned list. -/
def scrapePageCards (cards : List Card) : List ScrapedCompany :=
  cards.filterMap extractCard

/-- A card whose h2 link has a text but whose href carries no trailing
ten-digit segment and whose text has no Org.nr label. -/
def cardNameOnly : Card :=
  { nameText := "Foo".toList, href := some "/foretag/foo".toList,
    cardText := "Foo".toList, locationSpans := [], propertyBlocks := [] }

/-- getRandomDelay from allabolag-scraper.ts, with the two Math.random()
draws r1 and r2 (each in [0,1)) passed in: the base delay is
floor(r1 * (max - min + 1)) + min, and with 10% probability (r2 < 0.1) the
returned delay is the doubled base delay. -/
def getRandomDelay (min max : Nat) (r1 r2 : ℚ) : Nat :=
  let baseDelay := (⌊r1 * ((max : ℚ) - (min : ℚ) + 1)⌋).toNat + min
  if r2 < 0.1 then baseDelay * 2 else baseDelay

/-- ScrapeProgress from allabolag-scraper.ts. -/
structure ScrapeProgress where
  currentPage : Nat
  totalPages : Nat
  companiesScraped : Nat
  totalCompanies : Nat
  companies : List ScrapedCompany
deriving DecidableEq

/-- One iteration of the while loop of scrapeAllCompanies: a successful
fetch appends the page's companies and yields a progress snapshot; a
thrown fetch (none) is caught, only waits the 5-10s backoff, and the loop
advances to the next page either way. -/
def scrapeStep (filterTotalPages filterTotalCompanies : Nat)
    (fetch : Nat → Option (List ScrapedCompany))
    (acc : List ScrapedCompany × List ScrapeProgress) (currentPage : Nat) :
    List ScrapedCompany × List ScrapeProgress :=
  match fetch currentPage with
  | some pageCompanies =>
    let all := acc.1 ++ pageCompanies
    (all, acc.2 ++ [{ currentPage := currentPage, totalPages := filterTotalPages,
                      companiesScraped := all.length,
                      totalCompanies := filterTotalCompanies,
                      companies := all }])
  | none => acc

/-- The page loop of scrapeAllCompanies over pages 1..totalPages, with the
network modelled as a function from page number to the fetch outcome
(none means scrapePage threw).  Returns the accumulated companies and the
yielded progress snapshots; the loop is a total function, so it always
reaches the last page. -/
def scrapeAllCompaniesModel (filterTotalPages filterTotalCompanies : Nat)
    (fetch : Nat → Option (List ScrapedCompany)) :
    List ScrapedCompany × List ScrapeProgress :=
  (List.range' 1 filterTotalPages).foldl
    (scrapeStep filterTotalPages filterTotalCompanies fetch) ([], [])

/-- Progress snapshot stored in a ScrapeJob. -/
structure JobProgress where
  currentPage : Nat
  totalPages : Nat
  companiesScraped : Nat
  totalCompanies : Nat
deriving DecidableEq

/-- ScrapeJob from types/company.ts.  The status field is kept as a string:
its declared union is {"pending", "scraping", "completed", "failed"}, but
one route stores a value outside the union (see the C3 theorem). -/
structure ScrapeJob where
  jobId : JStr
  status : JStr
  progress : JobProgress
  companies : List ScrapedCompany
  startedAt : Nat
  completedAt : Option Nat
  error : Option JStr
  sourceUrl : JStr
deriving DecidableEq

/-- The background driver of the scrape start route around the generator:
it tracks the last yielded progress and, when the generator loop finishes
without an uncaught exception, saves the job with status "completed" and a
completion timestamp.  In the model the loop itself never throws (page
failures are caught inside it). -/
def runScrapeJob (job : ScrapeJob) (filterTotalPages filterTotalCompanies : Nat)
    (fetch : Nat → Option (List ScrapedCompany)) (now : Nat) : ScrapeJob :=
  let res := scrapeAllCompaniesModel filterTotalPages filterTotalCompanies fetch
  let finalProgress : JobProgress := match res.2.getLast? with
    | some p => { currentPage := p.currentPage, totalPages := p.totalPages,
                  companiesScraped := p.companiesScraped,
                  totalCompanies := p.totalCompanies }
    | none => { currentPage := 0, totalPages := filterTotalPages,
                companiesScraped := 0, totalCompanies := filterTotalCompanies }
  { job with status := "completed".toList, completedAt := some now,
             progress := finalProgress }

/-- A job record used to instantiate the scrape-loop theorems. -/
def jobW : ScrapeJob :=
  { jobId := "job-2025-01-01-00-00-00".toList, status := "scraping".toList,
    progress := { currentPage := 0, totalPages := 3, companiesScraped := 0,
                  totalCompanies := 30 },
    companies := [], startedAt := 0, completedAt := none, error := none,
    sourceUrl := "https://www.allabolag.se/segmentering".toList }

/-- A fetch behaviour where page 2 throws and the other pages return no
companies. -/
def fetchW : Nat → Option (List ScrapedCompany) :=
  fun p => if p = 2 then none else some []

/-- FieldMapping from types/company.ts: for each scraped attribute, the
target CRM field name, "" meaning unmapped. -/
structure FieldMapping where
  organizationName : JStr
  orgNumber : JStr
  zipCode : JStr
  city : JStr
  revenue : JStr
  employees : JStr
  allabolagUrl : JStr
deriving DecidableEq

/-- JavaScript object property assignment on a string-keyed record:
overwrite the existing key or append a new one. -/
def objSet (props : List (JStr × JStr)) (k v : JStr) : List (JStr × JStr) :=
  if props.any (fun kv => kv.1 == k) then
    props.map (fun kv => if kv.1 == k then (k, v) else kv)
  else props ++ [(k, v)]

/-- The properties object built by batchCreateCompanies for one company
(identical in the bulk and in the individual-fallback paths): only
attributes with a truthy mapping target and a truthy source value are
copied, and the kalla source tag is stamped when a jobId is supplied. -/
def buildProperties (fieldMapping : FieldMapping) (company : ScrapedCompany)
    (jobId : Option JStr) : List (JStr × JStr) :=
  let props : List (JStr × JStr) := []
  let props := if fieldMapping.organizationName ≠ [] ∧ company.organizationName ≠ [] then
    objSet props fieldMapping.organizationName company.organizationName else props
  let props := if fieldMapping.orgNumber ≠ [] ∧ company.orgNumber ≠ [] then
    objSet props fieldMapping.orgNumber company.orgNumber else props
  let props := if fieldMapping.zipCode ≠ [] ∧ company.zipCode ≠ [] then
    objSet props fieldMapping.zipCode company.zipCode else props
  let props := if fieldMapping.city ≠ [] ∧ company.city ≠ [] then
    objSet props fieldMapping.city company.city else props
  let props := if fieldMapping.revenue ≠ [] ∧ truthy company.revenue then
    objSet props fieldMapping.revenue (company.revenue.getD []) else props
  let props := if fieldMapping.employees ≠ [] ∧ truthy company.employees then
    objSet props fieldMapping.employees (company.employees.getD []) else props
  let props := if fieldMapping.allabolagUrl ≠ [] ∧ company.allabolagUrl ≠ [] then
    objSet props fieldMapping.allabolagUrl company.allabolagUrl else props
  match jobId with
  | some j =>
    if j ≠ [] then objSet props "kalla".toList ("bepp-hubspot-importer-".toList ++ j)
    else props
  | none => props

/-- ImportResult from types/company.ts. -/
structure ImportResult where
  success : Bool
  created : Nat
  failed : Nat
  errors : List (ScrapedCompany × JStr)
  createdIds : List JStr
deriving DecidableEq

/-- Structural worker for the batching: the fuel starts at the list length
and strictly dominates it throughout, so the zero-fuel branch is
unreachable. -/
def chunksGo : Nat → List ScrapedCompany → List (List ScrapedCompany)
  | 0, _ => []
  | _ + 1, [] => []
  | fuel + 1, x :: xs => ((x :: xs).take 100) :: chunksGo fuel (xs.drop 99)

/-- The batching of batchCreateCompanies: the slices
companies.slice(i, i + 100) of the i-loop (100 per call, the external
API's bulk limit). -/
def chunks100 (l : List ScrapedCompany) : List (List ScrapedCompany) :=
  chunksGo l.length l

/-- The individual-create fallback step of batchCreateCompanies: one
company is created on its own; a failure is recorded in the error list
with the company and the message, without aborting the batch. -/
def individualCreateStep (createOne : List (JStr × JStr) → Except JStr JStr)
    (fieldMapping : FieldMapping) (jobId : Option JStr)
    (r : ImportResult) (company : ScrapedCompany) : ImportResult :=
  match createOne (buildProperties fieldMapping company jobId) with
  | Except.ok cid =>
    { r with created := r.created + 1, createdIds := r.createdIds ++ [cid] }
  | Except.error msg =>
    { r with failed := r.failed + 1, errors := r.errors ++ [(company, msg)] }

/-- One batch iteration of batchCreateCompanies: try the bulk create; on
success count the returned ids, charging the shortfall of a partial
response as failed; on a thrown bulk call retry every company of the batch
with an individual create. -/
def importChunk (bulkCreate : List (List (JStr × JStr)) → Except Unit (List JStr))
    (createOne : List (JStr × JStr) → Except JStr JStr)
    (fieldMapping : FieldMapping) (jobId : Option JStr)
    (results : ImportResult) (batch : List ScrapedCompany) : ImportResult :=
  let inputs := batch.map (fun company => buildProperties fieldMapping company jobId)
  match bulkCreate inputs with
  | Except.ok ids =>
    { results with
      created := results.created + ids.length,
      createdIds := results.createdIds ++ ids,
      failed := if ids.length < batch.length then
          results.failed + (batch.length - ids.length)
        else results.failed }
  | Except.error _ =>
    batch.foldl (individualCreateStep createOne fieldMapping jobId) results

/-- batchCreateCompanies from hubspot-client.ts, with the CRM gateway
modelled by the two oracles: the companies are processed in batches of
100, each batch through importChunk, and finally success is set to
(failed == 0). -/
def batchCreateCompanies (bulkCreate : List (List (JStr × JStr)) → Except Unit (List JStr))
    (createOne : List (JStr × JStr) → Except JStr JStr)
    (companies : List ScrapedCompany) (fieldMapping : FieldMapping)
    (jobId : Option JStr) : ImportResult :=
  let init : ImportResult :=
    { success := true, created := 0, failed := 0, errors := [], createdIds := [] }
  let r := (chunks100 companies).foldl
    (importChunk bulkCreate createOne fieldMapping jobId) init
  { r with success := r.failed == 0 }

/-- A picklist option as ensureDropdownOption reads and writes it;
displayOrder, hidden and description may be absent, as in the source's own
option type annotations. -/
structure PropOption where
  label : JStr
  value : JStr
  displayOrder : Option Int
  hidden : Option Bool
  description : Option JStr
deriving DecidableEq

/-- The portion of a CRM property that ensureDropdownOption reads and
writes: fieldType, type, the readOnlyOptions flag of the modification
metadata, and the option list. -/
structure CrmProperty where
  fieldType : JStr
  ptype : JStr
  readOnlyOptions : Bool
  options : List PropOption
deriving DecidableEq

/-- Math.max over `opt.displayOrder || 0` of a non-empty option list, 0 for
an empty one (`||` and getD agree on numbers here since 0 is its own
fallback). -/
def maxDisplayOrderOf (options : List PropOption) : Int :=
  match options.map (fun opt => opt.displayOrder.getD 0) with
  | [] => 0
  | x :: xs => xs.foldl max x

/-- The write-back normalization applied by ensureDropdownOption to every
existing option: label, value and description are kept verbatim, a missing
displayOrder becomes 0 and a missing hidden becomes false. -/
def preserveOption (opt : PropOption) : PropOption :=
  { label := opt.label, value := opt.value,
    displayOrder := some (opt.displayOrder.getD 0),
    hidden := some (opt.hidden.getD false), description := opt.description }

/-- ensureDropdownOption from hubspot-client.ts acting on the property
state: an error for a non-dropdown property or read-only options; a no-op
when an option with the given value or the given label already exists;
otherwise the full option list is written back — every existing option
normalized by preserveOption — with the new option appended at the next
display order.  The post-update verification re-reads exactly what was
written and therefore finds the value, so it never raises in the model. -/
def ensureDropdownOption (property : CrmProperty) (optionValue optionLabel : JStr) :
    Except JStr CrmProperty :=
  if property.fieldType ≠ "select".toList ∧ property.ptype ≠ "enumeration".toList then
    Except.error "not a dropdown/select property".toList
  else if property.readOnlyOptions then
    Except.error "has read-only options and cannot be modified via API".toList
  else if property.options.any (fun opt => opt.value == optionValue
      || opt.label == optionLabel) then
    Except.ok property
  else
    let maxDisplayOrder := maxDisplayOrderOf property.options
    let preservedOptions := property.options.map preserveOption
    let newOption : PropOption :=
      { label := optionLabel, value := optionValue,
        displayOrder := some (maxDisplayOrder + 1), hidden := some false,
        description := none }
    Except.ok { property with options := preservedOptions ++ [newOption] }

instance {ε α : Type _} [DecidableEq ε] [DecidableEq α] : DecidableEq (Except ε α) := fun a b =>
  match a, b with
  | .ok x, .ok y =>
    if h : x = y then isTrue (by rw [h]) else isFalse (fun hh => h (Except.ok.inj hh))
  | .ok _, .error _ => isFalse (fun hh => Except.noConfusion hh)
  | .error _, .ok _ => isFalse (fun hh => Except.noConfusion hh)
  | .error x, .error y =>
    if h : x = y then isTrue (by rw [h]) else isFalse (fun hh => h (Except.error.inj hh))

/-- A modifiable dropdown property whose single option has no explicit
displayOrder and no explicit hidden flag. -/
def optA : PropOption :=
  { label := "A".toList, value := "a".toList, displayOrder := none,
    hidden := none, description := none }

/-- The property state holding only optA. -/
def pPartialMeta : CrmProperty :=
  { fieldType := "select".toList, ptype := "enumeration".toList,
    readOnlyOptions := false, options := [optA] }

/-- A modifiable dropdown property whose single option carries explicit
metadata. -/
def pFullMeta : CrmProperty :=
  { fieldType := "select".toList, ptype := "enumeration".toList,
    readOnlyOptions := false,
    options := [{ label := "A".toList, value := "a".toList,
                  displayOrder := some 3, hidden := some false,
                  description := none }] }

/-- A bulk-create behaviour that always throws. -/
def bulkAlwaysThrows : List (List (JStr × JStr)) → Except Unit (List JStr) :=
  fun _ => Except.error ()

/-- An individual-create behaviour that always succeeds. -/
def createOneOk : List (JStr × JStr) → Except JStr JStr :=
  fun _ => Except.ok "id".toList

/-- A batch of exactly 100 companies. -/
def companies100 : List ScrapedCompany := List.replicate 100 scrFuzzy

/-- A field mapping with the two policy-fixed targets populated. -/
def fmW : FieldMapping :=
  { organizationName := "name".toList, orgNumber := "org_number".toList,
    zipCode := [], city := [], revenue := [], employees := [],
    allabolagUrl := "allabolag_url".toList }

/-- The property state written back by a successful ensureDropdownOption
call that appended a new option. -/
def addedProperty (p : CrmProperty) (v l : JStr) : CrmProperty :=
  { p with options := p.options.map preserveOption
      ++ [{ label := l, value := v,
            displayOrder := some (maxDisplayOrderOf p.options + 1),
            hidden := some false, description := none }] }

/-- The four values of the declared ScrapeJob status union of
types/company.ts. -/
def validStatuses : List JStr :=
  ["pending".toList, "scraping".toList, "completed".toList, "failed".toList]

/-- createScrapeJob from allabolag-scraper.ts: the initial pending job. -/
def createScrapeJob (jobId sourceUrl : JStr) (now : Nat) : ScrapeJob :=
  { jobId := jobId, status := "pending".toList,
    progress := { currentPage := 0, totalPages := 0, companiesScraped := 0,
                  totalCompanies := 0 },
    companies := [], startedAt := now, completedAt := none, error := none,
    sourceUrl := sourceUrl }

/-- The post-import job status update of the hubspot import route: after a
successful import with a jobId, the loaded job is saved back with status
"import complete" and a completion timestamp. -/
def importRouteStatusUpdate (job : ScrapeJob) (now : Nat) : ScrapeJob :=
  { job with status := "import complete".toList, completedAt := some now }

/-- The job snapshot returned by the job status query route. -/
structure StatusResponse where
  jobId : JStr
  status : JStr
  progress : JobProgress
  companies : List ScrapedCompany
  startedAt : Nat
  completedAt : Option Nat
  error : Option JStr
  sourceUrl : JStr
deriving DecidableEq

/-- Math.ceil(n / 10) on natural numbers. -/
def ceilDiv10 (n : Nat) : Nat := (n + 9) / 10

/-- GET of the job status route: 400 without a jobId, 404 for an unknown
job; otherwise the job snapshot with companiesScraped and currentPage
reconciled against the actually persisted company list by taking the
maximum (10 companies per page). -/
def statusRouteGET (jobId : JStr) (jobLoaded : Option ScrapeJob)
    (companiesLoaded : Option (List ScrapedCompany)) : Except Nat StatusResponse :=
  if jobId = [] then Except.error 400
  else
    match jobLoaded with
    | none => Except.error 404
    | some job =>
      let companiesList := companiesLoaded.getD []
      let actualCompaniesScraped := companiesList.length
      let actualPagesScraped := ceilDiv10 actualCompaniesScraped
      Except.ok
        { jobId := job.jobId, status := job.status,
          progress := { job.progress with
                        companiesScraped := max job.progress.companiesScraped
                          actualCompaniesScraped,
                        currentPage := max job.progress.currentPage actualPagesScraped },
          companies := companiesList, startedAt := job.startedAt,
          completedAt := job.completedAt, error := job.error,
          sourceUrl := job.sourceUrl }

/-- A persisted job whose status snapshot reports 5 scraped companies on
page 1. -/
def job5 : ScrapeJob :=
  { jobId := "job-5".toList, status := "scraping".toList,
    progress := { currentPage := 1, totalPages := 3, companiesScraped := 5,
                  totalCompanies := 30 },
    companies := [], startedAt := 0, completedAt := none, error := none,
    sourceUrl := [] }

/-- A minimal scraped company record. -/
def scrPlain : ScrapedCompany :=
  { organizationName := "x".toList, orgNumber := [], zipCode := [], city := [],
    revenue := none, employees := none, allabolagUrl := [] }

/-- A persisted entity list of 8 entries. -/
def companies8 : List ScrapedCompany := List.replicate 8 scrPlain

theorem levMatrix_zero_right (s1 s2 : JStr) (i : Nat) : levMatrix s1 s2 i 0 = i := by
  cases i <;> simp [levMatrix]

theorem levMatrix_symm (s1 s2 : JStr) (i j : Nat) :
    levMatrix s1 s2 i j = levMatrix s2 s1 j i := by
  induction i generalizing j with
  | zero => simp [levMatrix, levMatrix_zero_right]
  | succ i ih =>
    induction j with
    | zero => simp [levMatrix, levMatrix_zero_right]
    | succ j ihj =>
      have h1 := ih (j + 1)
      have h2 := ihj
      have h3 := ih j
      have hc : (if s2.getD j ' ' = s1.getD i ' ' then (0 : Nat) else 1)
          = (if s1.getD i ' ' = s2.getD j ' ' then (0 : Nat) else 1) := by
        by_cases h : s1.getD i ' ' = s2.getD j ' '
        · rw [if_pos h, if_pos h.symm]
        · rw [if_neg h, if_neg (fun hh => h hh.symm)]
      simp only [levMatrix]
      rw [hc, h1, h2, h3]
      omega

theorem levMatrix_le_max (s1 s2 : JStr) (i j : Nat) :
    levMatrix s1 s2 i j ≤ max i j := by
  induction i generalizing j with
  | zero => simp [levMatrix]
  | succ i ih =>
    cases j with
    | zero => simp [levMatrix_zero_right]
    | succ j =>
      have h3 := ih j
      have hcost : (if s1.getD i ' ' = s2.getD j ' ' then (0 : Nat) else 1) ≤ 1 := by
        split <;> omega
      simp only [levMatrix]
      omega

theorem levMatrix_diag (s : JStr) (i : Nat) : levMatrix s s i i = 0 := by
  induction i with
  | zero => simp [levMatrix]
  | succ i ih =>
    have h : levMatrix s s (i + 1) (i + 1)
        ≤ levMatrix s s i i + (if s.getD i ' ' = s.getD i ' ' then 0 else 1) := by
      simp only [levMatrix]
      omega
    rw [if_pos rfl] at h
    omega

theorem levenshteinDistance_symm (a b : JStr) :
    levenshteinDistance a b = levenshteinDistance b a := by
  simp only [levenshteinDistance]
  by_cases ha : (jsToLower a).length = 0 <;> by_cases hb : (jsToLower b).length = 0 <;>
    simp [ha, hb, levMatrix_symm (jsToLower a) (jsToLower b)]

theorem levenshteinDistance_le_max (a b : JStr) :
    levenshteinDistance a b ≤ max a.length b.length := by
  have la : (jsToLower a).length = a.length := by simp [jsToLower]
  have lb : (jsToLower b).length = b.length := by simp [jsToLower]
  simp only [levenshteinDistance]
  by_cases ha : (jsToLower a).length = 0 <;> by_cases hb : (jsToLower b).length = 0 <;>
    simp [ha, hb]
  · omega
  · omega
  · have := levMatrix_le_max (jsToLower a) (jsToLower b) (jsToLower a).length (jsToLower b).length
    omega

theorem levenshteinDistance_self (a : JStr) : levenshteinDistance a a = 0 := by
  simp only [levenshteinDistance]
  by_cases ha : (jsToLower a).length = 0
  · simp [ha]
  · simp [ha, levMatrix_diag]

theorem stringSimilarity_nonneg (a b : JStr) : 0 ≤ stringSimilarity a b := by
  unfold stringSimilarity
  by_cases hab : a = [] ∨ b = []
  · simp [hab]
  · push_neg at hab
    have hm : 0 < max a.length b.length := by
      have : a.length ≠ 0 := fun h => hab.1 (List.length_eq_zero.mp h)
      omega
    have hd : levenshteinDistance a b ≤ max a.length b.length :=
      levenshteinDistance_le_max a b
    have hmQ : (0 : ℚ) < (max a.length b.length : ℚ) := by exact_mod_cast hm
    have hdQ : (levenshteinDistance a b : ℚ) ≤ (max a.length b.length : ℚ) := by
      exact_mod_cast hd
    have hdiv : (levenshteinDistance a b : ℚ) / (max a.length b.length : ℚ) ≤ 1 :=
      (div_le_one hmQ).mpr hdQ
    simp only [if_neg (by tauto : ¬(a = [] ∨ b = []))]
    rw [if_neg (by omega : ¬ max a.length b.length = 0)]
    rw [sub_nonneg]
    push_cast
    push_cast at hdiv
    exact hdiv

theorem stringSimilarity_le_one (a b : JStr) : stringSimilarity a b ≤ 1 := by
  unfold stringSimilarity
  by_cases hab : a = [] ∨ b = []
  · simp [hab]
  · have hm : 0 < max a.length b.length := by
      push_neg at hab
      have : a.length ≠ 0 := fun h => hab.1 (List.length_eq_zero.mp h)
      omega
    have hdiv : (0 : ℚ) ≤ (levenshteinDistance a b : ℚ) / (max a.length b.length : ℚ) := by
      apply div_nonneg <;> positivity
    simp only [if_neg (by tauto : ¬(a = [] ∨ b = []))]
    rw [if_neg (by omega : ¬ max a.length b.length = 0)]
    rw [sub_le_self_iff]
    push_cast
    push_cast at hdiv
    exact hdiv

theorem stringSimilarity_self (a : JStr) (h : a ≠ []) : stringSimilarity a a = 1 := by
  unfold stringSimilarity
  have hm : 0 < max a.length a.length := by
    have : a.length ≠ 0 := fun hh => h (List.length_eq_zero.mp hh)
    omega
  rw [if_neg (by tauto : ¬(a = [] ∨ a = []))]
  rw [if_neg (by omega : ¬ max a.length a.length = 0)]
  simp [levenshteinDistance_self]

theorem stringSimilarity_symm (a b : JStr) :
    stringSimilarity a b = stringSimilarity b a := by
  unfold stringSimilarity
  by_cases ha : a = [] <;> by_cases hb : b = [] <;>
    simp [ha, hb, Nat.max_comm, levenshteinDistance_symm a b]

/-- C9: the string-similarity function is symmetric and bounded: for all
strings a and b, similarity(a,b) = similarity(b,a) and
0 ≤ similarity(a,b) ≤ 1; similarity(a,a) = 1 for every non-empty a; and an
empty argument yields similarity 0 rather than a division error. -/
theorem stringSimilarity_symm_bounded (a b : JStr) :
    stringSimilarity a b = stringSimilarity b a ∧
    0 ≤ stringSimilarity a b ∧ stringSimilarity a b ≤ 1 ∧
    (a ≠ [] → stringSimilarity a a = 1) ∧
    stringSimilarity [] b = 0 ∧ stringSimilarity a [] = 0 :=
  ⟨stringSimilarity_symm a b, stringSimilarity_nonneg a b, stringSimilarity_le_one a b,
    fun h => stringSimilarity_self a h,
    by simp [stringSimilarity], by simp [stringSimilarity]⟩

/-- Witness for C9 at the concrete strings "ab" and "x". -/
theorem stringSimilarity_symm_bounded_witness :
    ("ab".toList ≠ ([] : JStr)) ∧ stringSimilarity "ab".toList "ab".toList = 1 ∧
    stringSimilarity "ab".toList "x".toList = stringSimilarity "x".toList "ab".toList :=
  ⟨by decide, (stringSimilarity_symm_bounded "ab".toList "x".toList).2.2.2.1 (by decide),
    (stringSimilarity_symm_bounded "ab".toList "x".toList).1⟩

theorem not_whitespace_of_digit (c : Char) (h : c.isDigit = true) :
    c.isWhitespace = false := by
  by_contra hw
  have hw2 : c.isWhitespace = true := by
    cases hcw : c.isWhitespace
    · exact absurd hcw hw
    · rfl
  have hcases : ((c = ' ' ∨ c = '\t') ∨ c = '\r') ∨ c = '\n' := by
    simpa [Char.isWhitespace] using hw2
  rcases hcases with ((h1 | h1) | h1) | h1 <;> subst h1 <;> exact absurd h (by decide)

theorem jsTrim_of_digits (l : JStr) (h : ∀ c ∈ l, c.isDigit = true) : jsTrim l = l := by
  unfold jsTrim
  have hdw : ∀ m : JStr, (∀ c ∈ m, c.isDigit = true) → m.dropWhile Char.isWhitespace = m := by
    intro m hm
    cases m with
    | nil => rfl
    | cons a as =>
      rw [List.dropWhile_cons]
      rw [not_whitespace_of_digit a (hm a (List.mem_cons_self a as))]
      simp
  rw [hdw l h]
  rw [hdw l.reverse (fun c hc => h c (List.mem_reverse.mp hc))]
  exact List.reverse_reverse l

/-- C10: registry-identifier normalization is idempotent, and the stated
concrete equalities hold: both "556199-8484" and " 5561998484 " normalize
to "5561998484". -/
theorem normalizeOrgNumber_idempotent :
    (∀ x : JStr, normalizeOrgNumber (normalizeOrgNumber x) = normalizeOrgNumber x) ∧
    normalizeOrgNumber "556199-8484".toList = "5561998484".toList ∧
    normalizeOrgNumber " 5561998484 ".toList = "5561998484".toList := by
  refine ⟨?_, by decide, by decide⟩
  intro x
  by_cases hx : x = []
  · simp [hx, normalizeOrgNumber]
  · have hinner : normalizeOrgNumber x = (jsTrim x).filter Char.isDigit := by
      simp [normalizeOrgNumber, hx]
    rw [hinner]
    by_cases hy : (jsTrim x).filter Char.isDigit = []
    · simp [hy, normalizeOrgNumber]
    · have hall : ∀ c ∈ (jsTrim x).filter Char.isDigit, c.isDigit = true := by
        intro c hc
        exact List.of_mem_filter hc
      simp only [normalizeOrgNumber, if_neg hy]
      rw [jsTrim_of_digits _ hall]
      exact List.filter_eq_self.mpr hall

/-- C8: every result list of the Duplicate Matcher has all exact org-number
matches before all name-similarity matches, and within the name-similarity
matches the similarity scores are non-increasing. -/
theorem findDuplicates_ordering (hs : List HubspotCompany) (sc : List ScrapedCompany) :
    (findDuplicates hs sc).Pairwise (fun a b =>
      (a.matchType = MatchType.name_similarity → b.matchType = MatchType.name_similarity) ∧
      (a.matchType = MatchType.name_similarity → b.matchType = MatchType.name_similarity →
        b.similarity.getD 0 ≤ a.similarity.getD 0)) := by
  have hsorted : (findDuplicates hs sc).Pairwise dupRel := by
    unfold findDuplicates
    exact List.sorted_insertionSort dupRel _
  refine hsorted.imp ?_
  intro a b hab
  unfold dupRel dupLe at hab
  cases ha : a.matchType <;> cases hb : b.matchType <;> simp_all

theorem exactMatchFor_scrapedCompany (m : List (JStr × HubspotCompany))
    (s : ScrapedCompany) (d : DuplicateMatch) (h : exactMatchFor m s = some d) :
    d.scrapedCompany = s := by
  unfold exactMatchFor at h
  split at h
  · dsimp only at h
    split at h
    · split at h
      · cases h
        rfl
      · cases h
    · cases h
  · cases h

theorem fuzzyMatchFor_scrapedCompany (hs : List HubspotCompany)
    (s : ScrapedCompany) (d : DuplicateMatch) (h : fuzzyMatchFor hs s = some d) :
    d.scrapedCompany = s := by
  unfold fuzzyMatchFor at h
  split at h
  · cases h
    rfl
  · cases h

theorem passes_countP_le (hs : List HubspotCompany) (m : List (JStr × HubspotCompany))
    (s : ScrapedCompany) (l : List ScrapedCompany) :
    (l.filterMap (exactMatchFor m)).countP (fun d => d.scrapedCompany == s)
      + (l.filterMap (fun a => if (exactMatchFor m a).isSome then none
          else fuzzyMatchFor hs a)).countP (fun d => d.scrapedCompany == s)
      ≤ l.count s := by
  induction l with
  | nil => simp
  | cons a t ih =>
    rw [List.count_cons]
    cases hex : exactMatchFor m a with
    | some d =>
      have hd : d.scrapedCompany = a := exactMatchFor_scrapedCompany m a d hex
      simp [List.filterMap_cons, hex, List.countP_cons, hd]
      omega
    | none =>
      cases hf : fuzzyMatchFor hs a with
      | some d =>
        have hd : d.scrapedCompany = a := fuzzyMatchFor_scrapedCompany hs a d hf
        simp [List.filterMap_cons, hex, hf, List.countP_cons, hd]
        omega
      | none =>
        simp [List.filterMap_cons, hex, hf]
        omega

/-- C2 amended: the fuzzy pass excludes only scraped entities already
matched by exact key, not external entities; consequently each scraped
entity is consumed by at most one match overall, while an external entity
recorded as an exact-key match may additionally be the best fuzzy
candidate of another scraped entity (see the counterexample). -/
theorem findDuplicates_scraped_consumed_once (hs : List HubspotCompany)
    (sc : List ScrapedCompany) (s : ScrapedCompany) :
    (findDuplicates hs sc).countP (fun d => d.scrapedCompany == s) ≤ sc.count s := by
  unfold findDuplicates
  rw [(List.perm_insertionSort dupRel _).countP_eq]
  rw [List.countP_append]
  exact passes_countP_le hs (hubspotByOrgNumber hs) s sc

theorem fuzzyMatchFor_scrFuzzy :
    fuzzyMatchFor [hsBoth] scrFuzzy = some dFuzzyC2 := by
  have hsim : stringSimilarity (normalizeCompanyName scrFuzzy.organizationName)
      (normalizeCompanyName (hsBoth.nameProp.getD [])) = 1 := by
    have : normalizeCompanyName scrFuzzy.organizationName
        = normalizeCompanyName (hsBoth.nameProp.getD []) := by decide
    rw [this]
    exact stringSimilarity_self _ (by decide)
  unfold fuzzyMatchFor bestFuzzy
  simp only [List.foldl]
  rw [if_pos (by decide : truthy hsBoth.nameProp = true)]
  rw [if_pos (by rw [hsim]; constructor <;> norm_num [NAME_SIMILARITY_THRESHOLD])]
  rfl

/-- C2 counterexample: with one external company hsBoth carrying both a
valid org number and a name, the scraped list [scrExact, scrFuzzy]
produces an exact-key match consuming hsBoth AND a fuzzy-name match
returning the same external company hsBoth for the other scraped entity,
so an exact-matched external entity is not excluded from the fuzzy pass. -/
theorem findDuplicates_reuses_exact_matched_external :
    (findDuplicates [hsBoth] [scrExact, scrFuzzy]).countP
      (fun d => decide (d.matchType = MatchType.org_number)
        && (d.hubspotCompany.id == "h1".toList)) = 1 ∧
    (findDuplicates [hsBoth] [scrExact, scrFuzzy]).countP
      (fun d => decide (d.matchType = MatchType.name_similarity)
        && (d.hubspotCompany.id == "h1".toList)) = 1 := by
  have hp1 : [scrExact, scrFuzzy].filterMap (exactMatchFor (hubspotByOrgNumber [hsBoth]))
      = [dExactC2] := by decide
  have hexSome : (exactMatchFor (hubspotByOrgNumber [hsBoth]) scrExact).isSome = true := by
    decide
  have hexNone : (exactMatchFor (hubspotByOrgNumber [hsBoth]) scrFuzzy).isSome = false := by
    decide
  have hp2 : [scrExact, scrFuzzy].filterMap (fun s =>
      if (exactMatchFor (hubspotByOrgNumber [hsBoth]) s).isSome then none
      else fuzzyMatchFor [hsBoth] s) = [dFuzzyC2] := by
    simp only [List.filterMap_cons, List.filterMap_nil, hexSome, hexNone, if_true, if_false,
      fuzzyMatchFor_scrFuzzy]
    rfl
  have hfd : findDuplicates [hsBoth] [scrExact, scrFuzzy]
      = List.insertionSort dupRel ([dExactC2] ++ [dFuzzyC2]) := by
    simp only [findDuplicates]
    rw [hp1, hp2]
  constructor
  · rw [hfd, (List.perm_insertionSort dupRel _).countP_eq]
    decide
  · rw [hfd, (List.perm_insertionSort dupRel _).countP_eq]
    decide

theorem extractCard_none_iff (c : Card) :
    extractCard c = none ↔ (cardOrgNumber c = [] ∨ cardName c = []) := by
  unfold extractCard
  by_cases h : cardOrgNumber c = [] ∨ cardName c = [] <;> simp [h]

theorem scrapePageCards_length (cards : List Card) :
    (scrapePageCards cards).length
      = cards.countP (fun c => !decide (cardOrgNumber c = [] ∨ cardName c = [])) := by
  induction cards with
  | nil => rfl
  | cons c t ih =>
    unfold scrapePageCards at *
    rw [List.countP_cons]
    cases he : extractCard c with
    | some v =>
      have hcond : ¬(cardOrgNumber c = [] ∨ cardName c = []) := by
        intro hc
        rw [(extractCard_none_iff c).mpr hc] at he
        cases he
      simp only [List.filterMap_cons, he, List.length_cons, ih, hcond]
      simp
    | none =>
      have hcond : cardOrgNumber c = [] ∨ cardName c = [] := (extractCard_none_iff c).mp he
      simp only [List.filterMap_cons, he, ih, hcond]
      simp

/-- C1 amended: a scraped record is silently dropped (and the page does not
fail) iff the card is missing a parseable registry identifier OR an
organization name — not only when both are missing; every remaining card
contributes one record to the page result. -/
theorem scrapePage_drops_card_missing_either (c : Card) (cards : List Card) :
    (extractCard c = none ↔ (cardOrgNumber c = [] ∨ cardName c = [])) ∧
    (scrapePageCards cards).length
      = cards.countP (fun c => !decide (cardOrgNumber c = [] ∨ cardName c = [])) :=
  ⟨extractCard_none_iff c, scrapePageCards_length cards⟩

/-- C1 counterexample: cardNameOnly yields an organization name but no
parseable registry identifier, yet scrapePage drops it — the page result
is empty — contradicting the claim that such a card is still included. -/
theorem scrapePage_drops_name_only_card :
    cardName cardNameOnly ≠ [] ∧ cardOrgNumber cardNameOnly = [] ∧
    scrapePageCards [cardNameOnly] = [] :=
  ⟨by decide, by decide, by decide⟩

theorem scrapeLoop_yield_count (tp tc : Nat) (fetch : Nat → Option (List ScrapedCompany))
    (l : List Nat) :
    ∀ acc : List ScrapedCompany × List ScrapeProgress,
      ((l.foldl (scrapeStep tp tc fetch) acc).2).length
        = acc.2.length + l.countP (fun p => (fetch p).isSome) := by
  induction l with
  | nil => intro acc; simp
  | cons p t ih =>
    intro acc
    rw [List.foldl_cons, List.countP_cons, ih]
    unfold scrapeStep
    cases hf : fetch p with
    | none => simp [hf]
    | some pc =>
      simp [hf]
      omega

/-- C4 amended: a page fetch failure never fails the job: the orchestrator
waits a backoff delay whose base is drawn from the 5-10 second range —
doubled with 10% probability, so the delay lies in the 5-20 second range
overall and within 5-10 seconds whenever the long-pause draw does not
fire — and advances to the next page, so the loop always reaches the last
page, the driver marks the job completed, and one progress snapshot is
yielded per successful page (possibly fewer than the page count). -/
theorem scrape_error_backoff_and_completion :
    (∀ r1 r2 : ℚ, 0 ≤ r1 → r1 < 1 →
      5000 ≤ getRandomDelay 5000 10000 r1 r2 ∧
      getRandomDelay 5000 10000 r1 r2 ≤ 20000 ∧
      ((0.1 : ℚ) ≤ r2 → getRandomDelay 5000 10000 r1 r2 ≤ 10000)) ∧
    (∀ (job : ScrapeJob) (tp tc now : Nat) (fetch : Nat → Option (List ScrapedCompany)),
      (runScrapeJob job tp tc fetch now).status = "completed".toList ∧
      (scrapeAllCompaniesModel tp tc fetch).2.length
        = (List.range' 1 tp).countP (fun p => (fetch p).isSome)) := by
  constructor
  · intro r1 r2 h0 h1
    have h5001 : ((10000 : Nat) : ℚ) - ((5000 : Nat) : ℚ) + 1 = 5001 := by norm_num
    simp only [getRandomDelay, h5001]
    have hprod0 : (0 : ℚ) ≤ r1 * 5001 := mul_nonneg h0 (by norm_num)
    have hprod1 : r1 * 5001 < 5001 := by nlinarith
    have hf0 : 0 ≤ ⌊r1 * (5001 : ℚ)⌋ := Int.floor_nonneg.mpr hprod0
    have hf1 : ⌊r1 * (5001 : ℚ)⌋ < 5001 := by
      rw [Int.floor_lt]
      exact_mod_cast hprod1
    have htn : (⌊r1 * (5001 : ℚ)⌋).toNat ≤ 5000 := by omega
    refine ⟨?_, ?_, ?_⟩
    · split <;> omega
    · split <;> omega
    · intro hr2
      rw [if_neg (not_lt.mpr hr2)]
      omega
  · intro job tp tc now fetch
    refine ⟨rfl, ?_⟩
    unfold scrapeAllCompaniesModel
    rw [scrapeLoop_yield_count]
    simp

/-- Witness for C4 at r1 = r2 = 1/2 and a three-page run where page 2
throws. -/
theorem scrape_error_backoff_and_completion_witness :
    (0 : ℚ) ≤ 1/2 ∧ (1/2 : ℚ) < 1 ∧
    5000 ≤ getRandomDelay 5000 10000 (1/2) (1/2) ∧
    (runScrapeJob jobW 3 30 fetchW 7).status = "completed".toList :=
  ⟨by norm_num, by norm_num,
    (scrape_error_backoff_and_completion.1 (1/2) (1/2) (by norm_num) (by norm_num)).1,
    (scrape_error_backoff_and_completion.2 jobW 3 30 7 fetchW).1⟩

/-- C4 counterexample to the stated 5-10 second range: with base draw 1/2
and a firing long-pause draw (r2 = 0 < 0.1), the backoff delay is 15000
milliseconds, outside the 5-10 second range. -/
theorem getRandomDelay_exceeds_stated_range :
    (0 : ℚ) ≤ 1/2 ∧ (1/2 : ℚ) < 1 ∧ (0 : ℚ) ≤ 0 ∧ (0 : ℚ) < 1 ∧
    getRandomDelay 5000 10000 (1/2) 0 = 15000 ∧ ¬ getRandomDelay 5000 10000 (1/2) 0 ≤ 10000 := by
  refine ⟨by norm_num, by norm_num, le_refl 0, by norm_num, ?_, ?_⟩ <;>
  · have hfloor : ⌊(1/2 : ℚ) * (((10000 : Nat) : ℚ) - ((5000 : Nat) : ℚ) + 1)⌋ = 2500 := by
      rw [show ((10000 : Nat) : ℚ) - ((5000 : Nat) : ℚ) + 1 = 5001 by norm_num]
      rw [Int.floor_eq_iff]
      constructor <;> norm_num
    simp only [getRandomDelay, hfloor]
    norm_num
    decide

theorem chunksGo_length_sum :
    ∀ (fuel : Nat) (l : List ScrapedCompany), l.length ≤ fuel →
      ((chunksGo fuel l).map List.length).sum = l.length := by
  intro fuel
  induction fuel with
  | zero =>
    intro l h
    have : l = [] := List.length_eq_zero.mp (by omega)
    simp [this, chunksGo]
  | succ f ih =>
    intro l h
    cases l with
    | nil => simp [chunksGo]
    | cons x xs =>
      have hd : (xs.drop 99).length ≤ f := by
        rw [List.length_drop]
        have := h
        simp only [List.length_cons] at this
        omega
      simp only [chunksGo, List.map_cons, List.sum_cons, ih (xs.drop 99) hd]
      rw [List.length_take, List.length_drop]
      simp only [List.length_cons] at h ⊢
      omega

theorem individualFold_counts (createOne : List (JStr × JStr) → Except JStr JStr)
    (fm : FieldMapping) (jobId : Option JStr) (batch : List ScrapedCompany) :
    ∀ r : ImportResult,
      (batch.foldl (individualCreateStep createOne fm jobId) r).created
        + (batch.foldl (individualCreateStep createOne fm jobId) r).failed
        = r.created + r.failed + batch.length := by
  induction batch with
  | nil => intro r; simp
  | cons c t ih =>
    intro r
    rw [List.foldl_cons, ih]
    unfold individualCreateStep
    cases createOne (buildProperties fm c jobId) <;> simp <;> omega

theorem importChunk_counts (bulkCreate : List (List (JStr × JStr)) → Except Unit (List JStr))
    (createOne : List (JStr × JStr) → Except JStr JStr)
    (fm : FieldMapping) (jobId : Option JStr)
    (Hbulk : ∀ inputs ids, bulkCreate inputs = Except.ok ids → ids.length ≤ inputs.length)
    (r : ImportResult) (batch : List ScrapedCompany) :
    (importChunk bulkCreate createOne fm jobId r batch).created
      + (importChunk bulkCreate createOne fm jobId r batch).failed
      = r.created + r.failed + batch.length := by
  simp only [importChunk]
  cases hb : bulkCreate (batch.map fun company => buildProperties fm company jobId) with
  | ok ids =>
    have hlen : ids.length ≤ batch.length := by
      have := Hbulk _ ids hb
      simpa using this
    by_cases hlt : ids.length < batch.length <;> simp [hlt] <;> omega
  | error e =>
    exact individualFold_counts createOne fm jobId batch r

theorem importFold_counts (bulkCreate : List (List (JStr × JStr)) → Except Unit (List JStr))
    (createOne : List (JStr × JStr) → Except JStr JStr)
    (fm : FieldMapping) (jobId : Option JStr)
    (Hbulk : ∀ inputs ids, bulkCreate inputs = Except.ok ids → ids.length ≤ inputs.length)
    (cs : List (List ScrapedCompany)) :
    ∀ r : ImportResult,
      (cs.foldl (importChunk bulkCreate createOne fm jobId) r).created
        + (cs.foldl (importChunk bulkCreate createOne fm jobId) r).failed
        = r.created + r.failed + (cs.map List.length).sum := by
  induction cs with
  | nil => intro r; simp
  | cons b t ih =>
    intro r
    rw [List.foldl_cons, ih, importChunk_counts bulkCreate createOne fm jobId Hbulk r b]
    simp only [List.map_cons, List.sum_cons]
    omega

/-- C5: for every call to the batch importer with n entities, when a bulk
batch call throws every entity of that batch is retried individually, and
the returned result always satisfies created + failed = n with
success = true iff failed = 0 (assuming the gateway's bulk response never
reports more created records than it was sent). -/
theorem batchCreateCompanies_counts
    (bulkCreate : List (List (JStr × JStr)) → Except Unit (List JStr))
    (createOne : List (JStr × JStr) → Except JStr JStr)
    (companies : List ScrapedCompany) (fm : FieldMapping) (jobId : Option JStr)
    (Hbulk : ∀ inputs ids, bulkCreate inputs = Except.ok ids → ids.length ≤ inputs.length) :
    (batchCreateCompanies bulkCreate createOne companies fm jobId).created
      + (batchCreateCompanies bulkCreate createOne companies fm jobId).failed
      = companies.length ∧
    ((batchCreateCompanies bulkCreate createOne companies fm jobId).success = true
      ↔ (batchCreateCompanies bulkCreate createOne companies fm jobId).failed = 0) := by
  unfold batchCreateCompanies
  dsimp only
  constructor
  · rw [importFold_counts bulkCreate createOne fm jobId Hbulk]
    simp only [Nat.zero_add]
    unfold chunks100
    exact chunksGo_length_sum companies.length companies le_rfl
  · simp [beq_iff_eq]

/-- Witness for C5: a batch of exactly 100 entities whose bulk call always
throws still yields created + failed = 100 (and, all individual retries
succeeding, a successful result). -/
theorem batchCreateCompanies_counts_witness :
    (batchCreateCompanies bulkAlwaysThrows createOneOk companies100 fmW
        (some "job-1".toList)).created
      + (batchCreateCompanies bulkAlwaysThrows createOneOk companies100 fmW
        (some "job-1".toList)).failed = 100 ∧
    (batchCreateCompanies bulkAlwaysThrows createOneOk companies100 fmW
        (some "job-1".toList)).success = true := by
  have h := batchCreateCompanies_counts bulkAlwaysThrows createOneOk companies100 fmW
    (some "job-1".toList) (fun inputs ids hh => by cases hh)
  refine ⟨h.1.trans (by simp [companies100]), h.2.mpr (by decide)⟩

theorem ensureDropdownOption_amended_parts (p : CrmProperty) (v l : JStr)
    (hsel : p.fieldType = "select".toList ∨ p.ptype = "enumeration".toList)
    (hro : p.readOnlyOptions = false)
    (habs : p.options.any (fun opt => opt.value == v || opt.label == l) = false) :
    ensureDropdownOption p v l = Except.ok (addedProperty p v l) := by
  unfold ensureDropdownOption
  rw [if_neg (by intro hc; exact hc.elim (fun h1 h2 => hsel.elim h1 h2))]
  rw [if_neg (by simp [hro])]
  rw [if_neg (by simp [habs])]
  rfl

/-- C6 amended: when the option (by value or label) is absent and the
property is a modifiable dropdown, ensureDropdownOption appends exactly one
option and a second call with the same value is a no-op; every existing
option keeps its label, value and description, and options carrying
explicit displayOrder and hidden metadata are preserved verbatim — but an
absent displayOrder is rewritten to 0 and an absent hidden to false on the
write-back (see the counterexample). -/
theorem ensureDropdownOption_idempotent_amended (p : CrmProperty) (v l : JStr)
    (hsel : p.fieldType = "select".toList ∨ p.ptype = "enumeration".toList)
    (hro : p.readOnlyOptions = false)
    (habs : p.options.any (fun opt => opt.value == v || opt.label == l) = false) :
    ensureDropdownOption p v l = Except.ok (addedProperty p v l) ∧
    (addedProperty p v l).options.length = p.options.length + 1 ∧
    ensureDropdownOption (addedProperty p v l) v l = Except.ok (addedProperty p v l) ∧
    ∀ opt ∈ p.options, (preserveOption opt).label = opt.label ∧
      (preserveOption opt).value = opt.value ∧
      (preserveOption opt).description = opt.description ∧
      (opt.displayOrder.isSome → opt.hidden.isSome → preserveOption opt = opt) := by
  refine ⟨ensureDropdownOption_amended_parts p v l hsel hro habs, ?_, ?_, ?_⟩
  · simp [addedProperty]
  · unfold ensureDropdownOption
    rw [if_neg (by
      intro hc
      exact hc.elim (fun h1 h2 => hsel.elim (fun hs => h1 hs) (fun hs => h2 hs)))]
    rw [if_neg (by simp [addedProperty, hro])]
    rw [if_pos (by simp [addedProperty])]
  · intro opt _
    refine ⟨rfl, rfl, rfl, ?_⟩
    intro h1 h2
    rcases opt with ⟨lab, val, dOrd, hid, desc⟩
    cases dOrd with
    | none => cases h1
    | some d =>
      cases hid with
      | none => cases h2
      | some hv => simp [preserveOption]

/-- Witness for C6 at pFullMeta (explicit metadata) and the new option
value "b" / label "B". -/
theorem ensureDropdownOption_idempotent_amended_witness :
    (pFullMeta.fieldType = "select".toList ∨ pFullMeta.ptype = "enumeration".toList) ∧
    pFullMeta.readOnlyOptions = false ∧
    pFullMeta.options.any (fun opt => opt.value == "b".toList
      || opt.label == "B".toList) = false ∧
    ensureDropdownOption pFullMeta "b".toList "B".toList
      = Except.ok (addedProperty pFullMeta "b".toList "B".toList) ∧
    (addedProperty pFullMeta "b".toList "B".toList).options.length
      = pFullMeta.options.length + 1 ∧
    ensureDropdownOption (addedProperty pFullMeta "b".toList "B".toList) "b".toList "B".toList
      = Except.ok (addedProperty pFullMeta "b".toList "B".toList) :=
  ⟨Or.inl (by decide), by decide, by decide,
    (ensureDropdownOption_idempotent_amended pFullMeta "b".toList "B".toList
      (Or.inl (by decide)) (by decide) (by decide)).1,
    (ensureDropdownOption_idempotent_amended pFullMeta "b".toList "B".toList
      (Or.inl (by decide)) (by decide) (by decide)).2.1,
    (ensureDropdownOption_idempotent_amended pFullMeta "b".toList "B".toList
      (Or.inl (by decide)) (by decide) (by decide)).2.2.1⟩

/-- C6 counterexample: on pPartialMeta, whose only option optA has no
explicit displayOrder and no explicit hidden flag, the first (appending)
call rewrites optA with displayOrder 0 and hidden false — existing option
metadata is altered, contrary to the claim. -/
theorem ensureDropdownOption_alters_option_metadata :
    ensureDropdownOption pPartialMeta "b".toList "B".toList
      = Except.ok (addedProperty pPartialMeta "b".toList "B".toList) ∧
    (addedProperty pPartialMeta "b".toList "B".toList).options.head?
      = some (preserveOption optA) ∧
    preserveOption optA ≠ optA :=
  ⟨by decide, by decide, by decide⟩

/-- C3: the post-import status update of the hubspot import route stores a
Job whose status "import complete" lies outside the declared four-value
set {pending, scraping, completed, failed}, for every loaded job — while
job creation stays inside the set. -/
theorem importRouteStatusUpdate_invalid_status (job : ScrapeJob) (now : Nat)
    (jobId sourceUrl : JStr) :
    (importRouteStatusUpdate job now).status ∉ validStatuses ∧
    (createScrapeJob jobId sourceUrl now).status ∈ validStatuses := by
  constructor
  · exact (by decide : "import complete".toList ∉ validStatuses)
  · exact (by decide : "pending".toList ∈ validStatuses)

/-- C7: the status query reconciles by maximum: for every found job the
reported companiesScraped is the maximum of the snapshot value and the
persisted entity-list length, and currentPage is the maximum of the
snapshot value and the page count derived from that length. -/
theorem statusRouteGET_reconciles (jobId : JStr) (job : ScrapeJob)
    (companiesLoaded : Option (List ScrapedCompany)) (h : jobId ≠ []) :
    (statusRouteGET jobId (some job) companiesLoaded).map
        (fun r => r.progress.companiesScraped)
      = Except.ok (max job.progress.companiesScraped (companiesLoaded.getD []).length) ∧
    (statusRouteGET jobId (some job) companiesLoaded).map
        (fun r => r.progress.currentPage)
      = Except.ok (max job.progress.currentPage
          (ceilDiv10 (companiesLoaded.getD []).length)) := by
  simp [statusRouteGET, h, Except.map]

/-- Witness for C7: a snapshot reporting companiesScraped = 5 against a
persisted list of 8 entities is reported as 8. -/
theorem statusRouteGET_reconciles_witness :
    "job-5".toList ≠ ([] : JStr) ∧
    (statusRouteGET "job-5".toList (some job5) (some companies8)).map
        (fun r => r.progress.companiesScraped) = Except.ok 8 :=
  ⟨by decide,
    ((statusRouteGET_reconciles "job-5".toList job5 (some companies8) (by decide)).1).trans
      (by decide)⟩

end Bepp
